import Mathlib

/-!
Verification of the Dart entity extractor (`src/codegraphcontext/dart.py`).

The module consumes a concrete syntax tree produced by an external tree-sitter
engine.  We embed the tree as the inductive `Node` below, carrying exactly the
accessors the Python code reads: `type`, `text`, the start/end rows of
`start_point`/`end_point`, the ordered `children`, and the result of
`child_by_field_name("name")` (the only field the code ever queries).
Pointer-style navigation that tree-sitter provides on live nodes
(`parent`, `prev_sibling`, `next_named_sibling`) is modelled by passing the
navigation results alongside a node wherever the Python code uses them.
-/

namespace Dart

inductive Node where
  | mk (type : String) (text : String) (startRow : Nat) (endRow : Nat)
       (children : List Node) (nameField : Option Node)

def Node.type : Node → String
  | .mk t _ _ _ _ _ => t

def Node.text : Node → String
  | .mk _ tx _ _ _ _ => tx

def Node.startRow : Node → Nat
  | .mk _ _ sr _ _ _ => sr

def Node.endRow : Node → Nat
  | .mk _ _ _ er _ _ => er

def Node.children : Node → List Node
  | .mk _ _ _ _ cs _ => cs

def Node.nameField : Node → Option Node
  | .mk _ _ _ _ _ nf => nf

/-- The fixed decision-point node-type set of `_calc_complexity`. -/
def complexity_types : List String :=
  ["if_statement", "for_statement", "while_statement", "do_statement",
   "switch_statement", "case_clause", "default_clause", "conditional_expression",
   "logical_or_expression", "logical_and_expression", "binary_expression",
   "try_statement", "catch_clause"]

mutual

/-- Embeds the mutable-counter walk of `_calc_complexity`: the accumulator is the
Python `count` variable; the node itself is tested before its children. -/
def walkAcc : Nat → Node → Nat
  | acc, .mk t _ _ _ cs _ =>
    walkAccList (if complexity_types.contains t then acc + 1 else acc) cs

def walkAccList : Nat → List Node → Nat
  | acc, [] => acc
  | acc, n :: ns => walkAccList (walkAcc acc n) ns

end

/-- `_calc_complexity`: the counter starts at 1 and the walk starts at the given node. -/
def calc_complexity (n : Node) : Nat := walkAcc 1 n

mutual

/-- Pure count of decision-point nodes in the subtree rooted at `n` (the node
itself included), used to state what the accumulator walk computes. -/
def census : Node → Nat
  | .mk t _ _ _ cs _ => (if complexity_types.contains t then 1 else 0) + censusList cs

def censusList : List Node → Nat
  | [] => 0
  | n :: ns => census n + censusList ns

end

mutual

theorem walkAcc_eq (acc : Nat) (n : Node) : walkAcc acc n = acc + census n := by
  cases n with
  | mk t tx sr er cs nf =>
    rw [walkAcc, census, walkAccList_eq]
    split <;> omega

theorem walkAccList_eq (acc : Nat) (ns : List Node) :
    walkAccList acc ns = acc + censusList ns := by
  cases ns with
  | nil => rw [walkAccList, censusList]; omega
  | cons n ns =>
    rw [walkAccList, censusList, walkAccList_eq, walkAcc_eq]
    omega

end

def charsPrefixOf : List Char → List Char → Bool
  | [], _ => true
  | _ :: _, [] => false
  | a :: as, b :: bs => a == b && charsPrefixOf as bs

def charsInfixOf (needle : List Char) : List Char → Bool
  | [] => charsPrefixOf needle []
  | b :: bs => charsPrefixOf needle (b :: bs) || charsInfixOf needle bs

/-- Substring test `"comment" in prev.type` of `_leading_line_comment`. -/
def isCommentType (t : String) : Bool :=
  charsInfixOf "comment".toList t.toList

/-- `_leading_line_comment`, over the list of previous siblings of the node
(nearest sibling first), which is how the Python code walks `prev_sibling`. -/
def leading_line_comment : List Node → Option String
  | [] => none
  | p :: ps =>
    if isCommentType p.type then some p.text.trim
    else if p.type = "\n" || p.type = " " || p.type = "metadata" then
      leading_line_comment ps
    else none

/-- The leading run of `identifier` and `.` children of a constructor signature,
as collected by the loop in `_extract_function_name` (stops at the first child
of any other type). -/
def constructorNameParts : List Node → List String
  | [] => []
  | c :: cs =>
    if c.type = "identifier" then c.text :: constructorNameParts cs
    else if c.type = "." then "." :: constructorNameParts cs
    else []

/-- `_extract_function_name`. -/
def extract_function_name (n : Node) : Option String :=
  if (n.type = "function_signature" || n.type = "getter_signature"
      || n.type = "setter_signature") && n.nameField.isSome then
    n.nameField.map Node.text
  else if n.type = "constructor_signature" then
    match constructorNameParts n.children with
    | [] => none
    | parts => some (String.join parts)
  else none

/-- One recognized parameter child inside a nested `formal_parameter_list`:
`normal_formal_parameter` and `simple_formal_parameter` both contribute their
`name` field's text when that field is present, else nothing. -/
def recognizedParamNames (ch : Node) : List String :=
  if ch.type = "normal_formal_parameter" || ch.type = "simple_formal_parameter" then
    match ch.nameField with
    | some idn => [idn.text]
    | none => []
  else []

/-- The parameter-name extraction loop of `_find_functions`, over the captured
`params` node `p`: direct children of type `formal_parameter_list` are scanned
for the two recognized parameter shapes, direct children of type
`simple_formal_parameter` contribute their `name` field, and every other child
is skipped. -/
def extract_params (p : Node) : List String :=
  p.children.foldl
    (fun acc child =>
      if child.type = "formal_parameter_list" then
        acc ++ child.children.foldl (fun acc2 ch => acc2 ++ recognizedParamNames ch) []
      else if child.type = "simple_formal_parameter" then
        acc ++ (match child.nameField with
                | some idn => [idn.text]
                | none => [])
      else acc)
    []

structure FunctionEntity where
  name : String
  line_number : Nat
  end_line : Nat
  args : List String
  source : String
  source_code : String
  docstring : Option String
  cyclomatic_complexity : Nat
  context : Option String
  context_type : Option String
  class_context : Option String
  decorators : List String
  lang : String
  is_dependency : Bool
  deriving DecidableEq

structure ClassEntity where
  name : String
  line_number : Nat
  end_line : Nat
  bases : List String
  source : String
  docstring : Option String
  context : Option String
  decorators : List String
  lang : String
  is_dependency : Bool
  deriving DecidableEq

structure ImportEntity where
  name : String
  full_import_name : String
  line_number : Nat
  «alias» : Option String
  lang : String
  is_dependency : Bool
  deriving DecidableEq

structure VariableEntity where
  name : String
  line_number : Nat
  value : Option String
  type : Option String
  context : Option String
  class_context : Option String
  lang : String
  is_dependency : Bool
  deriving DecidableEq

structure CallEntity where
  name : String
  full_name : String
  line_number : Nat
  args : List String
  inferred_obj_type : Option String
  context : Option String
  class_context : Option String
  lang : String
  is_dependency : Bool
  deriving DecidableEq

/-- One span-keyed accumulator of the `_find_functions` bucketing loop, together
with the pointer navigation the later per-bucket code performs on the signature
node: `parent` is `fn_node.parent`; `parentNextNamedSibling` and
`sigNextNamedSibling` are the `next_named_sibling` of the parent and of the
signature; `sigPrevSiblings` and `parentPrevSiblings` are the backward sibling
chains (nearest first) that `_leading_line_comment` walks. -/
structure FnBucket where
  signature : Node
  capturedName : Option String
  params : Option Node
  parent : Option Node
  parentNextNamedSibling : Option Node
  sigNextNamedSibling : Option Node
  sigPrevSiblings : List Node
  parentPrevSiblings : List Node

/-- The wrapper types accepted for the declaration container in `_find_functions`. -/
def wrapper_types : List String :=
  ["method_signature", "setter_signature", "getter_signature",
   "constructor_signature", "declaration"]

/-- Python truthiness test `not name` on an optional string. -/
def falsyName : Option String → Bool
  | none => true
  | some s => s == ""

/-- The name-resolution chain of the per-bucket loop in `_find_functions`:
a falsy captured name falls back to the derived name; for constructor
signatures a non-`None` derived dotted name overrides the captured name;
a still-falsy result drops the declaration (`continue`). -/
def resolveName (b : FnBucket) : Option String :=
  let derived := extract_function_name b.signature
  let name0 :=
    if falsyName b.capturedName then derived
    else if b.signature.type == "constructor_signature" && derived.isSome then derived
    else b.capturedName
  if falsyName name0 then none else name0

/-- Container selection of `_find_functions`: the parent when it exists and has
one of the wrapper types, else the signature node itself. -/
def containerOf (b : FnBucket) : Node :=
  match b.parent with
  | some par => if wrapper_types.contains par.type then par else b.signature
  | none => b.signature

/-- Whether the Python `container is not fn_node` identity test is true. -/
def containerIsParent (b : FnBucket) : Bool :=
  match b.parent with
  | some par => wrapper_types.contains par.type
  | none => false

def containerNextNamedSibling (b : FnBucket) : Option Node :=
  if containerIsParent b then b.parentNextNamedSibling else b.sigNextNamedSibling

/-- The body-candidate loop: the first candidate node whose type is
`function_body`; non-matching candidates do not stop the scan. -/
def firstFunctionBody : List (Option Node) → Option Node
  | [] => none
  | none :: rest => firstFunctionBody rest
  | some c :: rest =>
    if c.type = "function_body" then some c else firstFunctionBody rest

def bodyOf (b : FnBucket) : Option Node :=
  firstFunctionBody [containerNextNamedSibling b, b.sigNextNamedSibling]

/-- `end_node = body_node or container`. -/
def endNodeOf (b : FnBucket) : Node :=
  (bodyOf b).getD (containerOf b)

/-- Docstring lookup: at the signature first, retried at the container when the
first walk found nothing and the container is a distinct node. -/
def docOf (b : FnBucket) : Option String :=
  match leading_line_comment b.sigPrevSiblings with
  | some d => some d
  | none =>
    if containerIsParent b then leading_line_comment b.parentPrevSiblings else none

/-- Source text: the signature segment plus the body segment when present,
joined by a newline, segments that strip to empty dropped. -/
def sourceOf (b : FnBucket) : String :=
  let segments := [b.signature.text] ++
    (match bodyOf b with
     | some bd => [bd.text]
     | none => [])
  String.intercalate "\n" (segments.filter (fun s => s.trim ≠ ""))

def argsOf (b : FnBucket) : List String :=
  match b.params with
  | some p => extract_params p
  | none => []

/-- The record appended to `out` for one bucket that survived name resolution. -/
def mkFunctionEntity (b : FnBucket) (nm : String) : FunctionEntity :=
  { name := nm
    line_number := (containerOf b).startRow + 1
    end_line := (endNodeOf b).endRow + 1
    args := argsOf b
    source := sourceOf b
    source_code := sourceOf b
    docstring := docOf b
    cyclomatic_complexity := calc_complexity (endNodeOf b)
    context := none
    context_type := none
    class_context := none
    decorators := []
    lang := "dart"
    is_dependency := false }

/-- `_find_functions`, over the span-keyed buckets in first-encounter order
(the iteration order of `buckets.values()`). -/
def find_functions (bs : List FnBucket) : List FunctionEntity :=
  bs.filterMap (fun b => (resolveName b).map (mkFunctionEntity b))

/-- One `classes`-query capture, with the backward sibling chain of the node. -/
structure ClassCapture where
  node : Node
  cap : String
  prevSiblings : List Node

/-- Name fallback chain of `_find_classes`: captured `name` field, else the
first `identifier` among the immediate children, else the sentinel. -/
def classNameOf (n : Node) : String :=
  match n.nameField with
  | some nf => nf.text
  | none =>
    match n.children.find? (fun c => c.type == "identifier") with
    | some c => c.text
    | none => "extension"

/-- `_find_classes`. -/
def find_classes (caps : List ClassCapture) : List ClassEntity :=
  caps.filterMap (fun c =>
    if c.cap = "class" then
      some { name := classNameOf c.node
             line_number := c.node.startRow + 1
             end_line := c.node.endRow + 1
             bases := []
             source := c.node.text
             docstring := leading_line_comment c.prevSiblings
             context := none
             decorators := []
             lang := "dart"
             is_dependency := false }
    else none)

/-- One `imports`-query capture with its parent pointer (for a `@path` capture
matched by the patterns in `DART_QUERIES`, the parent is the `uri` node that
directly encloses the string literal). -/
structure ImportCapture where
  node : Node
  cap : String
  parent : Option Node

def quoteChars : List Char := [Char.ofNat 34, Char.ofNat 39]

/-- Python `str.strip("\x22'")`: removes every leading and trailing quote character. -/
def stripQuoteChars (s : String) : String :=
  String.mk (((s.toList.dropWhile (quoteChars.contains ·)).reverse.dropWhile
    (quoteChars.contains ·)).reverse)

/-- `_find_imports`: the line number is taken from `node.parent` (falling back
to the node itself when there is no parent). -/
def find_imports (caps : List ImportCapture) : List ImportEntity :=
  caps.filterMap (fun c =>
    if c.cap = "path" then
      let par := c.parent.getD c.node
      let raw := stripQuoteChars c.node.text
      some { name := raw
             full_import_name := raw
             line_number := par.startRow + 1
             «alias» := none
             lang := "dart"
             is_dependency := false }
    else none)

/-- One `calls`-query capture with its parent pointer. -/
structure CallCapture where
  node : Node
  cap : String
  parent : Option Node

/-- `_find_calls`. -/
def find_calls (caps : List CallCapture) : List CallEntity :=
  caps.filterMap (fun c =>
    if c.cap = "name" then
      some { name := c.node.text
             full_name := (match c.parent with
                           | some p => p.text
                           | none => c.node.text)
             line_number := c.node.startRow + 1
             args := []
             inferred_obj_type := none
             context := none
             class_context := none
             lang := "dart"
             is_dependency := false }
    else none)

/-- One `variables`-query capture; `declAncestor` is the nearest ancestor
(starting at the node itself) whose type is one of the three variable
declaration kinds, and `declId` models the Python object identity `id()` of
that ancestor, since `_find_variables` buckets by identity. -/
structure VarCapture where
  node : Node
  cap : String
  declAncestor : Option Node
  declId : Nat

structure VarBucket where
  declId : Nat
  node : Node
  nameText : Option String
  valueText : Option String

/-- `buckets.setdefault` keyed by object identity followed by a field update. -/
def varUpdate (bs : List VarBucket) (i : Nat) (n : Node)
    (f : VarBucket → VarBucket) : List VarBucket :=
  if bs.any (fun b => b.declId == i) then
    bs.map (fun b => if b.declId == i then f b else b)
  else
    bs ++ [f { declId := i, node := n, nameText := none, valueText := none }]

def collectVarBuckets (caps : List VarCapture) : List VarBucket :=
  caps.foldl
    (fun bs c =>
      if c.cap = "name" then
        match c.declAncestor with
        | some d => varUpdate bs c.declId d (fun b => { b with nameText := some c.node.text })
        | none => bs
      else if c.cap = "value" then
        match c.declAncestor with
        | some d => varUpdate bs c.declId d (fun b => { b with valueText := some c.node.text })
        | none => bs
      else bs)
    []

/-- `_find_variables`. -/
def find_variables (caps : List VarCapture) : List VariableEntity :=
  if caps.isEmpty then []
  else
    (collectVarBuckets caps).filterMap (fun b =>
      match b.nameText with
      | none => none
      | some nm =>
        some { name := nm
               line_number := b.node.startRow + 1
               value := b.valueText
               type := none
               context := none
               class_context := none
               lang := "dart"
               is_dependency := false })

/-- Which categories of `DART_QUERIES` hold a pattern: `calls` and `variables`
map to `None` by design, so their captures are always empty. -/
def dartQueryHasPattern : String → Bool
  | "functions" => true
  | "classes" => true
  | "imports" => true
  | "comments" => true
  | _ => false

/-- `_captures` returns the empty list when the category has no compiled query. -/
def capturesFor {α : Type} (category : String) (caps : List α) : List α :=
  if dartQueryHasPattern category then caps else []

structure FileRecord where
  file_path : String
  functions : List FunctionEntity
  classes : List ClassEntity
  «variables» : List VariableEntity
  imports : List ImportEntity
  function_calls : List CallEntity
  is_dependency : Bool
  lang : String
  deriving DecidableEq

/-- Input of one `parse` call: the path, the outcome of reading the file
(`none` models the exception branch), and the engine's query captures over the
resulting tree, already grouped the way each finder consumes them. -/
structure ParseInput where
  filePath : String
  source : Option String
  fnBuckets : List FnBucket
  classCaptures : List ClassCapture
  importCaptures : List ImportCapture
  varCaptures : List VarCapture
  callCaptures : List CallCapture

/-- `DartTreeSitterParser.parse`. -/
def parse (inp : ParseInput) (isDep : Bool) : FileRecord :=
  match inp.source with
  | none =>
    { file_path := inp.filePath
      functions := []
      classes := []
      «variables» := []
      imports := []
      function_calls := []
      is_dependency := isDep
      lang := "dart" }
  | some _ =>
    { file_path := inp.filePath
      functions := find_functions (capturesFor "functions" inp.fnBuckets)
      classes := find_classes (capturesFor "classes" inp.classCaptures)
      «variables» := find_variables (capturesFor "variables" inp.varCaptures)
      imports := find_imports (capturesFor "imports" inp.importCaptures)
      function_calls := find_calls (capturesFor "calls" inp.callCaptures)
      is_dependency := isDep
      lang := "dart" }

/-- One file of a `pre_scan_dart` batch: the resolved absolute path and the
texts of the `name` captures in iteration order, `none` when reading or parsing
the file raised (the file then contributes nothing). -/
structure ScanFile where
  resolvedPath : String
  symbols : Option (List String)

/-- The per-capture accumulation of `pre_scan_dart`: `setdefault` then append
unless the exact path is already present for the symbol. -/
def appendPath : List (String × List String) → String → String → List (String × List String)
  | [], sym, fp => [(sym, [fp])]
  | (s, ps) :: rest, sym, fp =>
    if s = sym then (s, if fp ∈ ps then ps else ps ++ [fp]) :: rest
    else (s, ps) :: appendPath rest sym fp

def preScanFile (m : List (String × List String)) (f : ScanFile) :
    List (String × List String) :=
  match f.symbols with
  | none => m
  | some syms => syms.foldl (fun acc sym => appendPath acc sym f.resolvedPath) m

/-- `pre_scan_dart`. -/
def pre_scan_dart (files : List ScanFile) : List (String × List String) :=
  files.foldl preScanFile []

@[simp] theorem capturesFor_fn {α : Type} (caps : List α) :
    capturesFor "functions" caps = caps := rfl

@[simp] theorem capturesFor_cls {α : Type} (caps : List α) :
    capturesFor "classes" caps = caps := rfl

@[simp] theorem capturesFor_imp {α : Type} (caps : List α) :
    capturesFor "imports" caps = caps := rfl

@[simp] theorem capturesFor_var {α : Type} (caps : List α) :
    capturesFor "variables" caps = [] := rfl

@[simp] theorem capturesFor_call {α : Type} (caps : List α) :
    capturesFor "calls" caps = [] := rfl

/-- Well-formedness of the navigation data in a bucket, as guaranteed by the
tree-sitter engine: a node ends no earlier than it starts, a child starts no
earlier than its parent, and a next (named) sibling starts no earlier than the
node it follows. -/
def wfBucket (b : FnBucket) : Bool :=
  decide (b.signature.startRow ≤ b.signature.endRow) &&
  (match b.parent with
   | none => true
   | some p => decide (p.startRow ≤ p.endRow) && decide (p.startRow ≤ b.signature.startRow)) &&
  (match b.parentNextNamedSibling with
   | none => true
   | some s => decide (s.startRow ≤ s.endRow) &&
       (match b.parent with
        | none => true
        | some p => decide (p.startRow ≤ s.startRow))) &&
  (match b.sigNextNamedSibling with
   | none => true
   | some s => decide (s.startRow ≤ s.endRow) && decide (b.signature.startRow ≤ s.startRow))

theorem wf_facts (b : FnBucket) (h : wfBucket b = true) :
    b.signature.startRow ≤ b.signature.endRow ∧
    (∀ p, b.parent = some p → p.startRow ≤ p.endRow ∧ p.startRow ≤ b.signature.startRow) ∧
    (∀ s, b.parentNextNamedSibling = some s → s.startRow ≤ s.endRow ∧
      ∀ p, b.parent = some p → p.startRow ≤ s.startRow) ∧
    (∀ s, b.sigNextNamedSibling = some s → s.startRow ≤ s.endRow ∧
      b.signature.startRow ≤ s.startRow) := by
  unfold wfBucket at h
  simp only [Bool.and_eq_true, decide_eq_true_eq] at h
  obtain ⟨⟨⟨h1, h2⟩, h3⟩, h4⟩ := h
  refine ⟨h1, ?_, ?_, ?_⟩
  · intro p hp
    rw [hp] at h2
    simpa using h2
  · intro s hs
    rw [hs] at h3
    simp only [Bool.and_eq_true, decide_eq_true_eq] at h3
    refine ⟨h3.1, fun p hp => ?_⟩
    have h32 := h3.2
    rw [hp] at h32
    simpa using h32
  · intro s hs
    rw [hs] at h4
    simpa using h4

theorem container_le_endNode (b : FnBucket) (h : wfBucket b = true) :
    (containerOf b).startRow ≤ (endNodeOf b).endRow := by
  obtain ⟨h1, h2, h3, h4⟩ := wf_facts b h
  cases hp : b.parent with
  | none =>
    cases hs : b.sigNextNamedSibling with
    | none =>
      simpa [endNodeOf, bodyOf, containerNextNamedSibling, containerIsParent,
        containerOf, firstFunctionBody, hp, hs] using h1
    | some s =>
      have hs4 := h4 s hs
      by_cases hf : s.type = "function_body" <;>
        simp [endNodeOf, bodyOf, containerNextNamedSibling, containerIsParent,
          containerOf, firstFunctionBody, hp, hs, hf] <;> omega
  | some p =>
    have hp2 := h2 p hp
    by_cases hw : p.type ∈ wrapper_types
    · cases hn : b.parentNextNamedSibling with
      | none =>
        cases hs : b.sigNextNamedSibling with
        | none =>
          simp [endNodeOf, bodyOf, containerNextNamedSibling, containerIsParent,
            containerOf, firstFunctionBody, hp, hn, hs, hw]
          omega
        | some s =>
          have hs4 := h4 s hs
          by_cases hf : s.type = "function_body" <;>
            simp [endNodeOf, bodyOf, containerNextNamedSibling, containerIsParent,
              containerOf, firstFunctionBody, hp, hn, hs, hw, hf] <;> omega
      | some s =>
        have hs3 := (h3 s hn).1
        have hps := (h3 s hn).2 p hp
        by_cases hf : s.type = "function_body"
        · simp [endNodeOf, bodyOf, containerNextNamedSibling, containerIsParent,
            containerOf, firstFunctionBody, hp, hn, hw, hf]
          omega
        · cases hs : b.sigNextNamedSibling with
          | none =>
            simp [endNodeOf, bodyOf, containerNextNamedSibling, containerIsParent,
              containerOf, firstFunctionBody, hp, hn, hs, hw, hf]
            omega
          | some s2 =>
            have hs4 := h4 s2 hs
            by_cases hf2 : s2.type = "function_body" <;>
              simp [endNodeOf, bodyOf, containerNextNamedSibling, containerIsParent,
                containerOf, firstFunctionBody, hp, hn, hs, hw, hf, hf2] <;> omega
    · cases hs : b.sigNextNamedSibling with
      | none =>
        simpa [endNodeOf, bodyOf, containerNextNamedSibling, containerIsParent,
          containerOf, firstFunctionBody, hp, hs, hw] using h1
      | some s =>
        have hs4 := h4 s hs
        by_cases hf : s.type = "function_body" <;>
          simp [endNodeOf, bodyOf, containerNextNamedSibling, containerIsParent,
            containerOf, firstFunctionBody, hp, hs, hw, hf] <;> omega

/-! Concrete syntax trees used by the claims about specific Dart inputs.
The trees are modelled from the spec's description of the external syntax-tree
engine (the engine itself is an external collaborator, not part of this
repository): each declaration is a typed node whose children carry the tokens
in source order, and a parameter of the "typed/normal" shape carries its
identifier in the `name` field. -/

/-- Modelled from the spec: the `name` identifier of the parameter `int x`. -/
def c1IdentX : Node := .mk "identifier" "x" 0 0 [] none

/-- Modelled from the spec: the typed parameter `int x` — the "typed/normal"
parameter shape, a `normal_formal_parameter` with `name` field `x`. -/
def c1Param : Node := .mk "normal_formal_parameter" "int x" 0 0
  [.mk "type_annotation" "int" 0 0 [] none, c1IdentX] (some c1IdentX)

/-- Modelled from the spec: the parameter list `(int x)` captured by `@params`. -/
def c1ParamsList : Node := .mk "formal_parameter_list" "(int x)" 0 0
  [.mk "(" "(" 0 0 [] none, c1Param, .mk ")" ")" 0 0 [] none] none

def c1IdentNamed : Node := .mk "identifier" "named" 0 0 [] none

/-- Modelled from the spec: the engine's parse of the constructor declaration
`Type.named(int x)`. The `constructor_signature` node's children are the
leading `identifier`/`.` run followed by the `formal_parameter_list`. -/
def c1Sig : Node := .mk "constructor_signature" "Type.named(int x)" 0 0
  [.mk "identifier" "Type" 0 0 [] none, .mk "." "." 0 0 [] none,
   c1IdentNamed, c1ParamsList] (some c1IdentNamed)

/-- The span-keyed bucket `_find_functions` builds for `c1Sig`: the query
captures the name token and the parameter list of the constructor signature. -/
def c1Bucket : FnBucket := ⟨c1Sig, some "named", some c1ParamsList, none, none, none, [], []⟩

/-- Modelled from the spec: a function declaration whose signature contains a
decision point (a default parameter value `a ? b : c`, a
`conditional_expression` node) and whose body contains none. -/
def c2Sig : Node := .mk "function_signature" "int f([int x = a ? b : c])" 0 0
  [.mk "identifier" "f" 0 0 [] none,
   .mk "conditional_expression" "a ? b : c" 0 0 [] none]
  (some (.mk "identifier" "f" 0 0 [] none))

def c2Body : Node := .mk "function_body" "=> 0;" 0 0 [] none

def c2Bucket : FnBucket := ⟨c2Sig, some "f", none, none, none, some c2Body, [], []⟩

/-- Following the words of claim C2: one plus the number of decision-point
nodes found by recursively visiting every node in the declaration's full span,
i.e. the signature plus the body when a body is present. -/
def claimedFullSpanComplexity (b : FnBucket) : Nat :=
  1 + census b.signature +
    (match bodyOf b with
     | some bd => census bd
     | none => 0)

/-- Modelled from the spec: the string literal of a two-line import directive. -/
def c3Lit : Node := .mk "string_literal" "\"package:pkg/lib.dart\"" 1 1 [] none

/-- Modelled from the spec: the `uri` node, the literal's immediate parent. -/
def c3Uri : Node := .mk "uri" "\"package:pkg/lib.dart\"" 1 1 [c3Lit] none

/-- Modelled from the spec: the engine's parse of an import directive that
spans two lines (`import` on row 0, the quoted path with trailing `;` on
row 1), nested exactly as the `imports` pattern of `DART_QUERIES` requires:
`import_or_export > library_import > import_specification > configurable_uri >
uri > string_literal`. The `@path` capture's `parent` is the `uri` node, the
immediate parent of the string literal. -/
def c3Directive : Node :=
  .mk "import_or_export" "import ..." 0 1
    [.mk "library_import" "import ..." 0 1
      [.mk "import" "import" 0 0 [] none,
       .mk "import_specification" "\"package:pkg/lib.dart\"" 1 1
         [.mk "configurable_uri" "\"package:pkg/lib.dart\"" 1 1 [c3Uri] none] none] none,
     .mk ";" ";" 1 1 [] none] none

/-- C1 (counterexample): on the modelled parse of `Type.named(int x)`, the
produced function entity is named `Type.named` but its `args` list is empty,
not `["x"]`: the typed parameter is a `normal_formal_parameter` directly under
the captured `formal_parameter_list`, a shape the extraction loop only
recognizes one level deeper (inside a nested `formal_parameter_list` child), so
no entity with `args = ["x"]` exists. -/
theorem C1_counterexample :
    (find_functions [c1Bucket]).map (fun e => (e.name, e.args))
      = [("Type.named", ([] : List String))] ∧
    ¬ ∃ e ∈ find_functions [c1Bucket], e.args = ["x"] := by
  constructor
  · rfl
  · decide

/-- C1 (amended): for the parsed constructor declaration `Type.named(int x)`,
the functions list contains exactly one entity; its name is the derived dotted
name `Type.named` (overriding the captured identifier `named`), and its `args`
list is empty, because the typed parameter sits directly under the captured
parameter list where only the bare `simple_formal_parameter` shape is
recognized. -/
theorem C1_theorem :
    (find_functions [c1Bucket]).map (fun e => (e.name, e.args))
      = [("Type.named", ([] : List String))] := rfl

/-- C2 (counterexample): for the modelled declaration whose signature holds one
decision point (`a ? b : c`) and whose body holds none, the code computes
`cyclomatic_complexity = 1` — the walk starts at the body alone — while the
claimed full-span census (signature plus body) gives 2. -/
theorem C2_counterexample :
    (find_functions [c2Bucket]).map (fun e => e.cyclomatic_complexity) = [1] ∧
    claimedFullSpanComplexity c2Bucket = 2 ∧ (1 : Nat) ≠ 2 := by
  refine ⟨rfl, rfl, by decide⟩

/-- C2 (amended): for every function entity produced, `cyclomatic_complexity`
equals 1 plus the number of decision-point nodes found by recursively visiting
every node of the `end_node` only — the body when a body was found, else the
container; decision points in the signature are not counted when a body is
present. -/
theorem C2_theorem (bs : List FnBucket) :
    (find_functions bs).map (fun e => e.cyclomatic_complexity)
      = bs.filterMap (fun b => (resolveName b).map (fun _ => 1 + census (endNodeOf b))) := by
  induction bs with
  | nil => rfl
  | cons b bs ih =>
    cases h : resolveName b with
    | none => simpa [find_functions, List.filterMap_cons, h] using ih
    | some nm =>
      simpa [find_functions, List.filterMap_cons, h, mkFunctionEntity,
        calc_complexity, walkAcc_eq] using ih

/-- C3: evaluation of `_find_imports` at the failing input. On the two-line
directive, exactly one import record is produced, its name and
`full_import_name` are the quote-stripped literal and its alias is null — but
its `line_number` is 2, the starting line of the literal's parent (the `uri`
node, which starts on the same line as the literal), not 1, the starting line
of the enclosing `import_or_export` directive node that the code's own comment
says it reads. -/
theorem C3_theorem :
    (find_imports [⟨c3Lit, "path", some c3Uri⟩]).map
        (fun e => (e.name, e.full_import_name, e.line_number, e.«alias»))
      = [("package:pkg/lib.dart", "package:pkg/lib.dart", 2, (none : Option String))] ∧
    c3Directive.startRow + 1 = 1 ∧ (2 : Nat) ≠ 1 := by
  refine ⟨rfl, rfl, by decide⟩

/-- C4: a declaration for which neither the captured name token nor the derived
name yields a (non-empty) name is silently excluded: removing its bucket from
the input leaves the entire parse record — the functions list and every other
entity list — unchanged. No error path exists: `parse` is a total function. -/
theorem C4_theorem (fp src : String) (bs1 bs2 : List FnBucket) (b : FnBucket)
    (cls : List ClassCapture) (imps : List ImportCapture) (vs : List VarCapture)
    (calls : List CallCapture) (d : Bool) (h : resolveName b = none) :
    parse ⟨fp, some src, bs1 ++ b :: bs2, cls, imps, vs, calls⟩ d
      = parse ⟨fp, some src, bs1 ++ bs2, cls, imps, vs, calls⟩ d := by
  simp [parse, find_functions, List.filterMap_append, List.filterMap_cons, h]

/-- A malformed signature node from which no name can be derived: no name was
captured and the signature type is not one the name derivation recognizes. -/
def c4Bucket : FnBucket :=
  ⟨.mk "ERROR" "int (" 0 0 [] none, none, none, none, none, none, [], []⟩

theorem C4_witness :
    parse ⟨"lib/a.dart", some "int (", [c4Bucket], [], [], [], []⟩ false
      = parse ⟨"lib/a.dart", some "int (", [], [], [], [], []⟩ false :=
  C4_theorem "lib/a.dart" "int (" [] [] c4Bucket [] [] [] [] false (by decide)

/-- C5: for every class-like capture, the entity's name is the captured `name`
field's text if present, else the text of the first `identifier` among the
node's immediate children, else the sentinel `"extension"`; an anonymous
type-extension capture yields exactly one entity named `"extension"` rather
than being dropped. -/
theorem C5_theorem (n : Node) (prevs : List Node) :
    (find_classes [⟨n, "class", prevs⟩]).map (fun e => e.name)
      = [match n.nameField with
         | some nf => nf.text
         | none =>
           match n.children.find? (fun c => c.type == "identifier") with
           | some c => c.text
           | none => "extension"] ∧
    (n.nameField = none →
      n.children.find? (fun c => c.type == "identifier") = none →
      (find_classes [⟨n, "class", prevs⟩]).map (fun e => e.name) = ["extension"] ∧
      (find_classes [⟨n, "class", prevs⟩]).length = 1) := by
  constructor
  · simp [find_classes, classNameOf]
  · intro h1 h2
    simp [find_classes, classNameOf, h1, h2]

/-- Modelled from the spec: a type-extension declaration with no identifiable
name (`extension on String`): no `name` field and no `identifier` child. -/
def c5Node : Node := .mk "extension_declaration" "extension on String" 0 2
  [.mk "extension" "extension" 0 0 [] none, .mk "on" "on" 0 0 [] none,
   .mk "type_identifier" "String" 0 0 [] none] none

theorem C5_witness :
    (find_classes [⟨c5Node, "class", []⟩]).map (fun e => e.name) = ["extension"] ∧
    (find_classes [⟨c5Node, "class", []⟩]).length = 1 :=
  (C5_theorem c5Node []).2 rfl rfl

/-- C6: when the file's contents cannot be read (the `source` input is `none`,
modelling the exception branch of `parse`), the call returns — without raising —
a record carrying the file path, the caller's `is_dependency` flag, the
language tag, and empty lists for all five entity kinds. -/
theorem C6_theorem (fp : String) (bs : List FnBucket) (cls : List ClassCapture)
    (imps : List ImportCapture) (vs : List VarCapture) (calls : List CallCapture)
    (d : Bool) :
    parse ⟨fp, none, bs, cls, imps, vs, calls⟩ d
      = { file_path := fp, functions := [], classes := [], «variables» := [],
          imports := [], function_calls := [], is_dependency := d, lang := "dart" } := rfl

/-- C7: for every entity produced by a parse of a well-formed tree, the line
number is 1-based and, where the entity carries an `end_line` (functions and
classes), `end_line` is at least `line_number`; the variables and calls lists
are always empty here, so the invariant holds for them vacuously. -/
theorem C7_theorem (inp : ParseInput) (d : Bool)
    (hf : ∀ b ∈ inp.fnBuckets, wfBucket b = true)
    (hc : ∀ c ∈ inp.classCaptures, c.node.startRow ≤ c.node.endRow) :
    (∀ e ∈ (parse inp d).functions, 1 ≤ e.line_number ∧ e.line_number ≤ e.end_line) ∧
    (∀ e ∈ (parse inp d).classes, 1 ≤ e.line_number ∧ e.line_number ≤ e.end_line) ∧
    (∀ e ∈ (parse inp d).imports, 1 ≤ e.line_number) ∧
    (parse inp d).«variables» = [] ∧
    (parse inp d).function_calls = [] := by
  obtain ⟨fp, src, bs, cls, imps, vs, calls⟩ := inp
  cases src with
  | none => simp [parse]
  | some s =>
    simp only [parse, capturesFor_fn, capturesFor_cls, capturesFor_imp,
      capturesFor_var, capturesFor_call]
    refine ⟨?_, ?_, ?_, rfl, rfl⟩
    · intro e he
      simp only [find_functions, List.mem_filterMap] at he
      obtain ⟨b, hb, hbe⟩ := he
      cases hres : resolveName b with
      | none => rw [hres] at hbe; simp at hbe
      | some nm =>
        rw [hres] at hbe
        simp only [Option.map_some'] at hbe
        obtain rfl := Option.some.inj hbe
        have hle := container_le_endNode b (hf b hb)
        simp only [mkFunctionEntity]
        omega
    · intro e he
      simp only [find_classes, List.mem_filterMap] at he
      obtain ⟨c, hcmem, hce⟩ := he
      by_cases hcap : c.cap = "class"
      · rw [if_pos hcap] at hce
        obtain rfl := Option.some.inj hce
        have hle := hc c hcmem
        simp only []
        omega
      · rw [if_neg hcap] at hce
        exact absurd hce (by simp)
    · intro e he
      simp only [find_imports, List.mem_filterMap] at he
      obtain ⟨c, hcmem, hce⟩ := he
      by_cases hcap : c.cap = "path"
      · rw [if_pos hcap] at hce
        obtain rfl := Option.some.inj hce
        simp only []
        omega
      · rw [if_neg hcap] at hce
        exact absurd hce (by simp)

def c7Sig : Node := .mk "function_signature" "int g()" 0 1 []
  (some (.mk "identifier" "g" 0 0 [] none))

def c7Bucket : FnBucket := ⟨c7Sig, some "g", none, none, none, none, [], []⟩

def c7ClassNode : Node := .mk "class_definition" "class A" 2 3 []
  (some (.mk "identifier" "A" 2 2 [] none))

def c7Lit : Node := .mk "string_literal" "\"a.dart\"" 0 0 [] none

def c7Input : ParseInput := ⟨"lib/w.dart", some "source", [c7Bucket],
  [⟨c7ClassNode, "class", []⟩], [⟨c7Lit, "path", none⟩], [], []⟩

def c7Fn : FunctionEntity := mkFunctionEntity c7Bucket "g"

theorem C7_witness :
    (1 ≤ c7Fn.line_number ∧ c7Fn.line_number ≤ c7Fn.end_line) ∧
    (parse c7Input false).«variables» = [] :=
  ⟨(C7_theorem c7Input false (by decide) (by decide)).1 c7Fn (by exact List.Mem.head _),
   (C7_theorem c7Input false (by decide) (by decide)).2.2.2.1⟩

/-- Nodup invariant over every path list of the symbol index. -/
def IndexNodup (m : List (String × List String)) : Prop := ∀ p ∈ m, p.2.Nodup

theorem appendPath_nodup (m : List (String × List String)) (sym fp : String)
    (h : IndexNodup m) : IndexNodup (appendPath m sym fp) := by
  induction m with
  | nil =>
    intro p hp
    simp [appendPath] at hp
    subst hp
    simp
  | cons e rest ih =>
    obtain ⟨s, ps⟩ := e
    have hrest : IndexNodup rest := fun p hp => h p (List.mem_cons_of_mem _ hp)
    have hhead : ps.Nodup := h (s, ps) (List.mem_cons_self _ _)
    intro p hp
    by_cases hs : s = sym
    · rw [appendPath, if_pos hs] at hp
      rcases List.mem_cons.mp hp with hp | hp
      · subst hp
        by_cases hm : fp ∈ ps
        · simpa [hm] using hhead
        · simp only [if_neg hm]
          exact List.Nodup.append hhead (List.nodup_singleton fp)
            (fun x hx hx' => by simp at hx'; subst hx'; exact hm hx)
      · exact hrest p hp
    · rw [appendPath, if_neg hs] at hp
      rcases List.mem_cons.mp hp with hp | hp
      · subst hp; exact hhead
      · exact ih hrest p hp

theorem foldl_appendPath_nodup (syms : List String) (fp : String)
    (m : List (String × List String)) (h : IndexNodup m) :
    IndexNodup (syms.foldl (fun acc sym => appendPath acc sym fp) m) := by
  induction syms generalizing m with
  | nil => simpa using h
  | cons s ss ih => simpa [List.foldl] using ih _ (appendPath_nodup m s fp h)

theorem preScan_aux_nodup (files : List ScanFile) (m : List (String × List String))
    (h : IndexNodup m) : IndexNodup (files.foldl preScanFile m) := by
  induction files generalizing m with
  | nil => simpa using h
  | cons f fs ih =>
    have hone : IndexNodup (preScanFile m f) := by
      unfold preScanFile
      cases f.symbols with
      | none => exact h
      | some syms => exact foldl_appendPath_nodup syms f.resolvedPath m h
    simpa [List.foldl] using ih _ hone

theorem lookup_nodup (m : List (String × List String)) (sym : String)
    (v : List String) (hm : IndexNodup m) (h : m.lookup sym = some v) : v.Nodup := by
  induction m with
  | nil => simp [List.lookup] at h
  | cons e rest ih =>
    obtain ⟨k, b⟩ := e
    simp only [List.lookup] at h
    split at h
    · obtain rfl := Option.some.inj h
      exact hm (k, b) (List.mem_cons_self _ _)
    · exact ih (fun p hp => hm p (List.mem_cons_of_mem _ hp)) h

/-- C8: for every input file list to the pre-scan — duplicate files and
repeated scans of the same set included, since any such run is just some list
of `ScanFile` inputs — every symbol's list of absolute file paths in the
returned index is duplicate-free. -/
theorem C8_theorem (files : List ScanFile) (sym : String) (paths : List String)
    (h : (pre_scan_dart files).lookup sym = some paths) : paths.Nodup :=
  lookup_nodup _ sym paths
    (preScan_aux_nodup files [] (fun p hp => absurd hp (List.not_mem_nil p))) h

def c8FileA : ScanFile := ⟨"/proj/a.dart", some ["Foo"]⟩

def c8FileB : ScanFile := ⟨"/proj/b.dart", some ["Foo"]⟩

theorem C8_witness :
    (pre_scan_dart [c8FileA, c8FileB, c8FileA, c8FileB]).lookup "Foo"
      = some ["/proj/a.dart", "/proj/b.dart"] ∧
    (["/proj/a.dart", "/proj/b.dart"] : List String).Nodup :=
  ⟨by decide,
   C8_theorem [c8FileA, c8FileB, c8FileA, c8FileB] "Foo"
     ["/proj/a.dart", "/proj/b.dart"] (by decide)⟩

def c9ClassNode : Node := .mk "class_definition" "class Foo" 0 3 []
  (some (.mk "identifier" "Foo" 0 0 [] none))

def c9Input : ParseInput := ⟨"lib/foo.dart", some "class Foo", [],
  [⟨c9ClassNode, "class", []⟩], [], [], []⟩

/-- C9 (counterexample): calling `parse` with `is_dependency = true` on a file
holding one class yields a record whose own `is_dependency` is `true` but whose
class entity carries `is_dependency = false` — the entity field does not equal
the caller-supplied value. -/
theorem C9_counterexample :
    (parse c9Input true).is_dependency = true ∧
    (parse c9Input true).classes.map (fun e => e.is_dependency) = [false] ∧
    (false : Bool) ≠ true := by
  refine ⟨rfl, rfl, by decide⟩

/-- C9 (amended): the aggregated file record echoes the caller-supplied
`is_dependency` value, but every produced function, class, variable, import and
call entity carries the hard-coded value `false` regardless of the flag. -/
theorem C9_theorem (inp : ParseInput) (d : Bool) :
    (parse inp d).is_dependency = d ∧
    (∀ e ∈ (parse inp d).functions, e.is_dependency = false) ∧
    (∀ e ∈ (parse inp d).classes, e.is_dependency = false) ∧
    (∀ e ∈ (parse inp d).imports, e.is_dependency = false) ∧
    (∀ e ∈ (parse inp d).«variables», e.is_dependency = false) ∧
    (∀ e ∈ (parse inp d).function_calls, e.is_dependency = false) := by
  obtain ⟨fp, src, bs, cls, imps, vs, calls⟩ := inp
  cases src with
  | none => simp [parse]
  | some s =>
    simp only [parse, capturesFor_fn, capturesFor_cls, capturesFor_imp,
      capturesFor_var, capturesFor_call]
    refine ⟨trivial, ?_, ?_, ?_, by simp [find_variables], by simp [find_calls]⟩
    · intro e he
      simp only [find_functions, List.mem_filterMap] at he
      obtain ⟨b, hb, hbe⟩ := he
      cases hres : resolveName b with
      | none => rw [hres] at hbe; simp at hbe
      | some nm =>
        rw [hres] at hbe
        simp only [Option.map_some'] at hbe
        obtain rfl := Option.some.inj hbe
        rfl
    · intro e he
      simp only [find_classes, List.mem_filterMap] at he
      obtain ⟨c, hcmem, hce⟩ := he
      by_cases hcap : c.cap = "class"
      · rw [if_pos hcap] at hce
        obtain rfl := Option.some.inj hce
        rfl
      · rw [if_neg hcap] at hce
        exact absurd hce (by simp)
    · intro e he
      simp only [find_imports, List.mem_filterMap] at he
      obtain ⟨c, hcmem, hce⟩ := he
      by_cases hcap : c.cap = "path"
      · rw [if_pos hcap] at hce
        obtain rfl := Option.some.inj hce
        rfl
      · rw [if_neg hcap] at hce
        exact absurd hce (by simp)

def c9ClassEntity : ClassEntity :=
  { name := "Foo", line_number := 1, end_line := 4, bases := [],
    source := "class Foo", docstring := none, context := none, decorators := [],
    lang := "dart", is_dependency := false }

theorem C9_witness :
    (parse c9Input true).is_dependency = true ∧
    c9ClassEntity.is_dependency = false :=
  ⟨(C9_theorem c9Input true).1,
   (C9_theorem c9Input true).2.2.1 c9ClassEntity (by exact List.Mem.head _)⟩

/-- C10: when the backward sibling walk starting at the signature node finds no
comment and the container is a distinct wrapper node, the documentation lookup
is retried starting at the container, so a comment immediately preceding the
wrapper declaration is still attached as the docstring. -/
theorem C10_theorem (b : FnBucket) (nm : String) (c : Node) (cs : List Node)
    (h1 : containerIsParent b = true)
    (h2 : leading_line_comment b.sigPrevSiblings = none)
    (h3 : b.parentPrevSiblings = c :: cs)
    (h4 : isCommentType c.type = true) :
    (mkFunctionEntity b nm).docstring = some c.text.trim := by
  simp [mkFunctionEntity, docOf, h1, h2, h3, leading_line_comment, h4]

def c10Comment : Node := .mk "comment" "/// docs" 0 0 [] none

def c10Sig : Node := .mk "function_signature" "int m()" 1 1 []
  (some (.mk "identifier" "m" 1 1 [] none))

def c10Bucket : FnBucket :=
  ⟨c10Sig, some "m", none, some (.mk "declaration" "int m()" 1 1 [c10Sig] none),
   none, none, [], [c10Comment]⟩

theorem C10_witness :
    (mkFunctionEntity c10Bucket "m").docstring = some c10Comment.text.trim :=
  C10_theorem c10Bucket "m" c10Comment [] (by decide) rfl rfl (by decide)

end Dart
